import Mathlib

/-!
Shallow embedding of the prism color-palette editor's state-management core
(the xstate machine in the source's global-state module): the document model
(palettes / scales / curves / naming schemes), the mutation actions, and the
undo/redo history machine with its debounce states.

Modelling conventions:
* JavaScript numbers are modelled as `JNum` (an exact rational, or NaN);
  `undefined` appearing where a number is expected is modelled with
  `Option JNum` at the few places the source can produce it.
* JavaScript objects used as string-keyed records are modelled as insertion
  ordered association lists (`JMap`): property update replaces the value in
  place, a new property is appended at the end, as in JS objects.
* Code paths that throw in JavaScript (property access on `undefined`) are
  modelled with `Option`: `none` means the action throws and the machine's
  state does not change.
* `uniqueId()` is modelled by a counter threaded through the machine state
  (the spec notes any collision-free generator is acceptable).
-/

/-- A JavaScript number: an exact rational or NaN.  Arithmetic propagates
NaN as in JS. -/
inductive JNum where
  | num (q : ℚ)
  | nan
  deriving DecidableEq

namespace JNum

def jadd : JNum → JNum → JNum
  | num a, num b => num (a + b)
  | _, _ => nan

def jsub : JNum → JNum → JNum
  | num a, num b => num (a - b)
  | _, _ => nan

def jmul : JNum → JNum → JNum
  | num a, num b => num (a * b)
  | _, _ => nan

/-- JS `Math.max(0, x)`: NaN if `x` is NaN. -/
def jmax0 : JNum → JNum
  | num a => num (max 0 a)
  | nan => nan

/-- JS `Math.round(x * 10) / 10` (round half toward positive infinity,
then one decimal place); NaN propagates. -/
def jround1 : JNum → JNum
  | num a => num ((⌊a * 10 + 1/2⌋ : ℤ) / 10)
  | nan => nan

/-- JS `u + x` where `u` may be `undefined`: `undefined + x` is NaN. -/
def jaddU : Option JNum → JNum → JNum
  | none, _ => nan
  | some v, x => jadd v x

/-- JS `Math.max(0, u - 10)` where `u` may be `undefined`. -/
def jmaxSubU (u : Option JNum) (k : ℚ) : JNum :=
  jmax0 (jaddU u (num (-k)))

end JNum

/-- Insertion-ordered string-keyed record, as a JS object holding values
of one type. -/
abbrev JMap (α : Type) := List (String × α)

namespace JMap

variable {α : Type}

def get? : JMap α → String → Option α
  | [], _ => none
  | (k', v) :: rest, k => if k' = k then some v else get? rest k

/-- JS property assignment: replaces the first binding of the key in place,
appends a new binding at the end otherwise. -/
def set : JMap α → String → α → JMap α
  | [], k, v => [(k, v)]
  | (k', v') :: rest, k, v =>
      if k' = k then (k, v) :: rest else (k', v') :: set rest k v

/-- JS `delete obj[k]`: removes the first binding of the key (no-op when
absent). -/
def erase : JMap α → String → JMap α
  | [], _ => []
  | (k', v') :: rest, k => if k' = k then rest else (k', v') :: erase rest k

end JMap

/-- A color channel name. -/
inductive Channel where
  | hue
  | saturation
  | lightness
  deriving DecidableEq

/-- A color: hue/saturation/lightness triple.  When a curve drives a
channel, the stored value is an offset; otherwise it is the absolute
value. -/
structure Color where
  hue : JNum
  saturation : JNum
  lightness : JNum
  deriving DecidableEq

namespace Color

def get (c : Color) : Channel → JNum
  | .hue => c.hue
  | .saturation => c.saturation
  | .lightness => c.lightness

def setc (c : Color) : Channel → JNum → Color
  | .hue, v => { c with hue := v }
  | .saturation, v => { c with saturation := v }
  | .lightness, v => { c with lightness := v }

end Color

/-- The `scale.curves` record: at most one curve id per channel
(channel name to curve id, a JS object with the three channel keys
possibly absent). -/
structure ChannelMap where
  hue : Option String
  saturation : Option String
  lightness : Option String
  deriving DecidableEq

namespace ChannelMap

def empty : ChannelMap := ⟨none, none, none⟩

def get (m : ChannelMap) : Channel → Option String
  | .hue => m.hue
  | .saturation => m.saturation
  | .lightness => m.lightness

def setc (m : ChannelMap) : Channel → Option String → ChannelMap
  | .hue, v => { m with hue := v }
  | .saturation, v => { m with saturation := v }
  | .lightness, v => { m with lightness := v }

end ChannelMap

/-- A curve: a named reusable sequence of numeric values driving one
channel across a scale's color indices. -/
structure Curve where
  id : String
  name : String
  type : Channel
  values : List JNum
  deriving DecidableEq

/-- A naming scheme: an ordered list of labels. -/
structure NamingScheme where
  id : String
  name : String
  names : List String
  deriving DecidableEq

/-- A scale: an ordered sequence of colors with per-channel curve
back-references and an optional naming scheme reference. -/
structure Scale where
  id : String
  name : String
  colors : List Color
  curves : ChannelMap
  namingSchemeId : Option String
  deriving DecidableEq

/-- A palette: owns its scales, curves and naming schemes. -/
structure Palette where
  id : String
  name : String
  backgroundColor : String
  scales : JMap Scale
  curves : JMap Curve
  namingSchemes : JMap NamingScheme
  deriving DecidableEq

/-- The document root: palette id to palette. -/
abbrev Doc := JMap Palette

/-- JS array element access with a possibly negative index: `arr[i]` is
`undefined` for any out-of-range or negative index. -/
def elemAtInt {α : Type} (l : List α) (i : Int) : Option α :=
  if 0 ≤ i then l[i.toNat]? else none

/-- JS `Array.prototype.slice` start/end index resolution. -/
def jsSliceIdx (len : Nat) (i : Int) : Nat :=
  if i < 0 then ((len : Int) + i).toNat else min i.toNat len

/-- JS `arr.slice(b, e)`. -/
def jsSlice {α : Type} (l : List α) (b e : Int) : List α :=
  (l.take (jsSliceIdx l.length e)).drop (jsSliceIdx l.length b)

/-- JS `arr.slice(b)`. -/
def jsSliceFrom {α : Type} (l : List α) (b : Int) : List α :=
  l.drop (jsSliceIdx l.length b)

/-- Sequences a list of optional values: `none` as soon as one entry is
`none` (a thrown JS exception aborts the whole action). -/
def seqOpt {α : Type} : List (Option α) → Option (List α)
  | [] => some []
  | none :: _ => none
  | some a :: rest => (seqOpt rest).map (a :: ·)

/-- Maps a function of the element index over a list, the index starting
at `k` (JS `arr.map((x, i) => ...)` with `k = 0`). -/
def mapWithIndex {α β : Type} (f : Nat → α → β) : Nat → List α → List β
  | _, [] => []
  | k, a :: rest => f k a :: mapWithIndex f (k + 1) rest

/-- Modelled from the spec: utils' `getColor` (the spec's `resolveColor`,
section 4.1) on one channel — the curve's value at the index plus the stored
offset when a curve is attached to the channel, the stored value alone
otherwise.  A dangling curve id throws in JS (`none` here); an index beyond
the curve's values yields `undefined + offset = NaN`. -/
def chanVal (curves : JMap Curve) (scale : Scale) (c : Color) (ch : Channel) (i : Nat) : Option JNum :=
  match scale.curves.get ch with
  | none => some (c.get ch)
  | some cid => (curves.get? cid).map fun cu => JNum.jaddU cu.values[i]? (c.get ch)

/-- Modelled from the spec: utils' `getColor` — the effective color of a
scale at an index (utils is not under src/; the spec gives the contract). -/
def getColor (curves : JMap Curve) (scale : Scale) (i : Nat) : Option Color :=
  match scale.colors[i]? with
  | none => none
  | some c =>
    match chanVal curves scale c .hue i, chanVal curves scale c .saturation i,
        chanVal curves scale c .lightness i with
    | some h, some s, some l => some ⟨h, s, l⟩
    | _, _, _ => none

/-- Modelled from the spec: utils' `lerp`, linear interpolation
`start + (end - start) * t`. -/
def jlerp (s en t : JNum) : JNum := JNum.jadd s (JNum.jmul (JNum.jsub en s) t)

/-- An easing function (external input, a bezier easing) lifted to JS
numbers: easing a NaN argument produces NaN. -/
def jease (e : ℚ → ℚ) : JNum → JNum
  | .num q => .num (e q)
  | .nan => .nan

/-- The interpolation parameter `index / (length - 1)` of
APPLY_EASING_FUNCTION; for a single value this is JS `0 / 0 = NaN`. -/
def tOf (n i : Nat) : JNum :=
  if n = 1 then .nan else .num ((i : ℚ) / ((n - 1 : Nat) : ℚ))

/-- Channel names as the strings used in curve names. -/
def chName : Channel → String
  | .hue => "hue"
  | .saturation => "saturation"
  | .lightness => "lightness"

/-- A partial color object (a JS object where any of the three channel
properties may be absent). -/
structure PColor where
  hue : Option JNum
  saturation : Option JNum
  lightness : Option JNum
  deriving DecidableEq

def Color.toP (c : Color) : PColor := ⟨some c.hue, some c.saturation, some c.lightness⟩

/-- JS object spread `{...x}` where `x` may be `undefined`: spreading
`undefined` yields the empty object. -/
def spreadColor : Option Color → PColor
  | none => ⟨none, none, none⟩
  | some c => c.toP

/-- Modelled from the spec: `hexToColor` of a CSS color name picked by
`randomIntegerInRange` (utils and css-color-names.json are not under src/).
The branch of CREATE_COLOR that calls it is dead (an object spread is never
falsy), so the placeholder value affects no claim. -/
def cssRandomColor (_rand : Nat) : PColor := ⟨some (.num 0), some (.num 50), some (.num 50)⟩

/-- JS truthiness of the `color` local in CREATE_COLOR: it always holds an
object (the result of a spread), and an object is never falsy. -/
def pcolorFalsy (_ : PColor) : Bool := false

/-- CREATE_COLOR's computation of the scale's new colors array at JS runtime
fidelity (source lines 305-319): with an out-of-range `afterIndex` the
inserted entry is a partial object, not a well-formed color. -/
def createColorNewColors (rand : Nat) (colors : List Color) (afterIndex : Option Int) : List PColor :=
  let ai : Int := afterIndex.getD ((colors.length : Int) - 1)
  let color0 := spreadColor (elemAtInt colors ai)
  let color1 :=
    if pcolorFalsy color0 then cssRandomColor rand
    else if ai = (colors.length : Int) - 1 then
      { color0 with lightness := some (JNum.jmaxSubU color0.lightness 10) }
    else color0
  (jsSlice colors 0 (ai + 1)).map Color.toP ++ color1 :: (jsSliceFrom colors (ai + 1)).map Color.toP

/-- Merge of a partial color into a color (JS `Object.assign(color, value)`,
CHANGE_COLOR_VALUE). -/
def mergeColor (c : Color) (v : PColor) : Color :=
  ⟨v.hue.getD c.hue, v.saturation.getD c.saturation, v.lightness.getD c.lightness⟩

/-- Modelled from the spec: the color and name CREATE_SCALE synthesizes
from a random CSS color name (css-color-names.json and utils'
hexToColor/randomIntegerInRange are not under src/).  A fixed placeholder
stands in; no claim depends on the choice. -/
def cssPlaceholderName : String := "gray"

/-- Modelled from the spec: placeholder for the converted CSS color (see
cssPlaceholderName). -/
def cssPlaceholderColor : Color := ⟨.num 0, .num 0, .num 50⟩

/-- The unique-id generator, modelled as a counter (the spec notes any
collision-free generator is acceptable). -/
def idStr (n : Nat) : String := "uid-" ++ toString n

/-- Write an updated scale back into its palette and document. -/
def putScale (d : Doc) (pid : String) (p : Palette) (sid : String) (sc : Scale) : Doc :=
  d.set pid { p with scales := p.scales.set sid sc }

/-- Write an updated curve back into its palette and document. -/
def putCurve (d : Doc) (pid : String) (p : Palette) (cid : String) (cu : Curve) : Doc :=
  d.set pid { p with curves := p.curves.set cid cu }

/-- CHANGE_PALETTE_NAME (source lines 236-241). -/
def changePaletteName (pid name : String) (d : Doc) : Option Doc := do
  let p ← d.get? pid
  some (d.set pid { p with name := name })

/-- CHANGE_PALETTE_BACKGROUND_COLOR (source lines 242-247). -/
def changePaletteBackgroundColor (pid bg : String) (d : Doc) : Option Doc := do
  let p ← d.get? pid
  some (d.set pid { p with backgroundColor := bg })

/-- JS `Object.assign(target, source)` over records: each binding of the
source written into the target in order. -/
def jmAssign {α : Type} (t s : JMap α) : JMap α :=
  s.foldl (fun acc kv => acc.set kv.1 kv.2) t

/-- IMPORT_SCALES (source lines 248-257). -/
def importScales (pid : String) (scales : JMap Scale) (replace : Bool) (d : Doc) : Option Doc := do
  let p ← d.get? pid
  if replace then some (d.set pid { p with scales := scales })
  else some (d.set pid { p with scales := jmAssign p.scales scales })

/-- CREATE_SCALE (source lines 258-274). -/
def createScale (scaleId pid : String) (d : Doc) : Option Doc := do
  let p ← d.get? pid
  let sc : Scale := ⟨scaleId, cssPlaceholderName, [cssPlaceholderColor], ChannelMap.empty, none⟩
  some (putScale d pid p scaleId sc)

/-- DELETE_SCALE (source lines 275-280). -/
def deleteScale (pid sid : String) (d : Doc) : Option Doc := do
  let p ← d.get? pid
  some (d.set pid { p with scales := p.scales.erase sid })

/-- DUPLICATE_SCALE (source lines 281-296). -/
def duplicateScale (newId pid sid : String) (d : Doc) : Option Doc := do
  let p ← d.get? pid
  let sc ← p.scales.get? sid
  some (putScale d pid p newId { sc with id := newId, name := sc.name ++ " (copy)" })

/-- CHANGE_SCALE_NAME (source lines 297-302). -/
def changeScaleName (pid sid name : String) (d : Doc) : Option Doc := do
  let p ← d.get? pid
  let sc ← p.scales.get? sid
  some (putScale d pid p sid { sc with name := name })

/-- CREATE_COLOR (source lines 303-321) in the typed document model.  When
`colors[afterIndex]` is undefined, JS builds a corrupt partial color (see
createColorNewColors, which is the runtime-faithful computation); the typed
model cannot hold it and treats that path as a failure. -/
def createColor (pid sid : String) (afterIndex : Option Int) (d : Doc) : Option Doc := do
  let p ← d.get? pid
  let sc ← p.scales.get? sid
  let ai : Int := afterIndex.getD ((sc.colors.length : Int) - 1)
  match elemAtInt sc.colors ai with
  | none => none
  | some c =>
    let c' := if ai = (sc.colors.length : Int) - 1 then
        { c with lightness := JNum.jmax0 (JNum.jsub c.lightness (.num 10)) } else c
    let colors' := jsSlice sc.colors 0 (ai + 1) ++ c' :: jsSliceFrom sc.colors (ai + 1)
    some (putScale d pid p sid { sc with colors := colors' })

/-- POP_COLOR (source lines 322-329).  The source guard returns early when
`colors.length > 1` OR a naming scheme is attached, and pops otherwise. -/
def popColor (pid sid : String) (d : Doc) : Option Doc := do
  let p ← d.get? pid
  let sc ← p.scales.get? sid
  if sc.colors.length > 1 || sc.namingSchemeId.isSome then some d
  else some (putScale d pid p sid { sc with colors := sc.colors.dropLast })

/-- DELETE_COLOR (source lines 330-340). -/
def deleteColor (pid sid : String) (index : Nat) (d : Doc) : Option Doc := do
  let p ← d.get? pid
  let sc ← p.scales.get? sid
  if sc.namingSchemeId.isSome then some d
  else if sc.colors.length > 1 then
    some (putScale d pid p sid { sc with colors := sc.colors.eraseIdx index })
  else some d

/-- CHANGE_COLOR_VALUE (source lines 341-346). -/
def changeColorValue (pid sid : String) (index : Nat) (v : PColor) (d : Doc) : Option Doc := do
  let p ← d.get? pid
  let sc ← p.scales.get? sid
  let c ← sc.colors[index]?
  some (putScale d pid p sid { sc with colors := sc.colors.set index (mergeColor c v) })

/-- CREATE_CURVE_FROM_SCALE (source lines 347-374): record the scale's
current effective values for the channel as a new curve, reference it from
the scale, and zero the channel's stored values (they become offsets). -/
def createCurveFromScale (curveId pid sid : String) (ct : Channel) (d : Doc) : Option Doc := do
  let p ← d.get? pid
  let sc ← p.scales.get? sid
  let values ← seqOpt ((List.range sc.colors.length).map fun i =>
    (getColor p.curves sc i).map (·.get ct))
  let curve : Curve := ⟨curveId, sc.name ++ " " ++ chName ct, ct, values⟩
  let p1 := { p with curves := p.curves.set curveId curve }
  let sc1 : Scale := { sc with curves := sc.curves.setc ct (some curveId),
                               colors := sc.colors.map (·.setc ct (.num 0)) }
  some (d.set pid { p1 with scales := p1.scales.set sid sc1 })

/-- CREATE_NAMING_SCHEME_FROM_SCALE (source lines 375-393). -/
def createNamingSchemeFromScale (nsId pid sid : String) (d : Doc) : Option Doc := do
  let p ← d.get? pid
  let sc ← p.scales.get? sid
  let ns : NamingScheme :=
    ⟨nsId, sc.name ++ " naming scheme", (List.range sc.colors.length).map toString⟩
  let p1 := { p with namingSchemes := p.namingSchemes.set nsId ns }
  some (putScale d pid p1 sid { sc with namingSchemeId := some nsId })

/-- CHANGE_CURVE_NAME (source lines 394-399). -/
def changeCurveName (pid cid name : String) (d : Doc) : Option Doc := do
  let p ← d.get? pid
  let cu ← p.curves.get? cid
  some (putCurve d pid p cid { cu with name := name })

/-- Whether a scale references the curve id on any channel. -/
def scaleRefs (curveId : String) (sc : Scale) : Bool :=
  sc.curves.hue = some curveId || sc.curves.saturation = some curveId ||
    sc.curves.lightness = some curveId

/-- One channel of the DELETE_CURVE detachment: write absolute values back
into the colors and drop the channel's curve reference when it matches. -/
def deleteCurveScale (cvals : List JNum) (curveId : String) (sc : Scale) (ch : Channel) : Scale :=
  match sc.curves.get ch with
  | some cid =>
      if cid = curveId then
        let colors' := mapWithIndex (fun i c => c.setc ch (JNum.jaddU cvals[i]? (c.get ch))) 0 sc.colors
        { sc with colors := colors', curves := sc.curves.setc ch none }
      else sc
  | none => sc

/-- DELETE_CURVE (source lines 400-422): detach from every referencing
scale and channel, then delete the curve.  JS reads the curve's values only
inside a matching reference, so a dangling delete succeeds exactly when no
scale references the id.  Channel updates are independent, so the fixed
hue/saturation/lightness order is faithful to JS object entry order. -/
def deleteCurve (pid curveId : String) (d : Doc) : Option Doc := do
  let p ← d.get? pid
  match p.curves.get? curveId with
  | some cu =>
      let scales' := p.scales.map fun kv =>
        (kv.1, [Channel.hue, Channel.saturation, Channel.lightness].foldl
          (deleteCurveScale cu.values curveId) kv.2)
      some (d.set pid { p with scales := scales', curves := p.curves.erase curveId })
  | none =>
      if p.scales.all fun kv => !scaleRefs curveId kv.2 then
        some (d.set pid { p with curves := p.curves.erase curveId })
      else none

/-- CHANGE_SCALE_CURVE (source lines 423-446): a non-empty curve id zeroes
the channel's stored values and references the curve (the empty string is
falsy in JS); an empty id writes the effective values back as absolutes and
drops the reference. -/
def changeScaleCurve (pid sid : String) (ct : Channel) (curveId : String) (d : Doc) : Option Doc := do
  let p ← d.get? pid
  let sc ← p.scales.get? sid
  if curveId ≠ "" then
    let sc1 : Scale := { sc with colors := sc.colors.map (·.setc ct (.num 0)),
                                 curves := sc.curves.setc ct (some curveId) }
    some (putScale d pid p sid sc1)
  else do
    let colors' ← seqOpt (mapWithIndex (fun i c =>
      (getColor p.curves sc i).map fun eff => c.setc ct (eff.get ct)) 0 sc.colors)
    some (putScale d pid p sid { sc with colors := colors', curves := sc.curves.setc ct none })

/-- CHANGE_SCALE_NAMING_SCHEME (source lines 447-466): always assigns the
scale's namingSchemeId; a falsy id (null or empty string) stops there, else
the colors array is resized to the scheme's name count, padding with the
last color.  With an empty colors array JS would fill the array with
`undefined` entries; the typed model cannot hold that corrupt state and
models it as a failure (no claim concerns an empty scale here). -/
def changeScaleNamingScheme (pid sid : String) (nsid : Option String) (d : Doc) : Option Doc := do
  let p ← d.get? pid
  let sc ← p.scales.get? sid
  match nsid with
  | none => some (putScale d pid p sid { sc with namingSchemeId := none })
  | some s =>
    if s = "" then some (putScale d pid p sid { sc with namingSchemeId := some s })
    else do
      let ns ← p.namingSchemes.get? s
      match sc.colors.getLast? with
      | some last =>
          let colors' := (List.range ns.names.length).map fun i => sc.colors.getD i last
          some (putScale d pid p sid { sc with namingSchemeId := some s, colors := colors' })
      | none =>
          if ns.names.length = 0 then
            some (putScale d pid p sid { sc with namingSchemeId := some s, colors := [] })
          else none

/-- CHANGE_CURVE_VALUE (source lines 467-472).  JS assignment beyond the
array's length would create holes; the typed model supports only in-range
assignment (no claim concerns the rest). -/
def changeCurveValue (pid cid : String) (index : Nat) (value : JNum) (d : Doc) : Option Doc := do
  let p ← d.get? pid
  let cu ← p.curves.get? cid
  if index < cu.values.length then
    some (putCurve d pid p cid { cu with values := cu.values.set index value })
  else none

/-- CHANGE_CURVE_VALUES (source lines 473-478). -/
def changeCurveValues (pid cid : String) (values : List JNum) (d : Doc) : Option Doc := do
  let p ← d.get? pid
  let cu ← p.curves.get? cid
  some (putCurve d pid p cid { cu with values := values })

/-- CHANGE_SCALE_COLORS (source lines 479-484). -/
def changeScaleColors (pid sid : String) (colors : List Color) (d : Doc) : Option Doc := do
  let p ← d.get? pid
  let sc ← p.scales.get? sid
  some (putScale d pid p sid { sc with colors := colors })

/-- APPLY_EASING_FUNCTION (source lines 485-502): rewrite every value of
the curve to the eased interpolation between the first and last values,
rounded to one decimal; return unchanged when either endpoint is
null/undefined (in particular for an empty values array). -/
def applyEasingFunction (pid curveId : String) (e : ℚ → ℚ) (d : Doc) : Option Doc := do
  let p ← d.get? pid
  let cu ← p.curves.get? curveId
  match cu.values[0]?, cu.values.getLast? with
  | some s, some en =>
      let values' := (List.range cu.values.length).map fun i =>
        JNum.jround1 (jlerp s en (jease e (tOf cu.values.length i)))
      some (putCurve d pid p curveId { cu with values := values' })
  | _, _ => some d

/-- UPDATE_NAMING_SCHEME (source lines 503-509). -/
def updateNamingScheme (pid : String) (ns : NamingScheme) (d : Doc) : Option Doc := do
  let p ← d.get? pid
  some (d.set pid { p with namingSchemes := p.namingSchemes.set ns.id ns })

/-- Modelled from the spec: the example scales seeding a new palette
(example-scales.json is not under src/).  One placeholder seed; no claim
depends on the seed contents. -/
def exampleSeeds : List (String × List Color) := [("grays", [⟨.num 0, .num 0, .num 50⟩])]

/-- CREATE_PALETTE (source lines 196-215): a fresh palette seeded with the
example scales.  Not a debounced action (no machine target). -/
def createPalette (n : Nat) (d : Doc) : Doc × Nat :=
  let paletteId := idStr n
  let scaleList := mapWithIndex
    (fun i s => (⟨idStr (n + 1 + i), s.1, s.2, ChannelMap.empty, none⟩ : Scale)) 0 exampleSeeds
  let scales : JMap Scale := scaleList.map fun s => (s.id, s)
  (d.set paletteId ⟨paletteId, "Untitled", "#ffffff", scales, [], []⟩,
    n + 1 + exampleSeeds.length)

/-- DUPLICATE_PALETTE (source lines 216-229).  Not a debounced action. -/
def duplicatePalette (n : Nat) (pid : String) (d : Doc) : Option (Doc × Nat) := do
  let p ← d.get? pid
  let newId := idStr n
  some (d.set newId { p with id := newId, name := p.name ++ " (copy)" }, n + 1)

/-- DELETE_PALETTE (source lines 230-235): JS `delete` never throws, a
missing id is a no-op.  This action DOES target the debouncing state. -/
def deletePalette (pid : String) (d : Doc) : Doc := d.erase pid

/-- The two states of the history machine. -/
inductive Phase where
  | idle
  | debouncing
  deriving DecidableEq

/-- The machine context: current document plus the undo/redo stacks. -/
structure Context where
  palettes : Doc
  past : List Doc
  future : List Doc
  deriving DecidableEq

/-- The machine state: xstate state value, context, and the unique-id
counter. -/
structure MState where
  phase : Phase
  ctx : Context
  nextId : Nat
  deriving DecidableEq

/-- UNDO (source lines 172-183): push the present onto the END of
`future` (despite the comment saying "beginning"), make the last past entry
current, drop it from `past`; no-op when `past` is empty. -/
def undoCtx (c : Context) : Context :=
  match c.past.getLast? with
  | none => c
  | some prev => ⟨prev, c.past.dropLast, c.future ++ [c.palettes]⟩

/-- REDO (source lines 184-195): push the present onto the end of `past`,
make `future[0]` (the FIRST entry) current, drop it from `future`; no-op
when `future` is empty. -/
def redoCtx (c : Context) : Context :=
  match c.future with
  | [] => c
  | next :: rest => ⟨next, c.past ++ [c.palettes], rest⟩

/-- The exit action of the `idle` state (source lines 512-523): push the
current document onto `past`, keep the most recent 25 entries
(`slice(-25)` drops from the front, i.e. the oldest first), clear
`future`. -/
def checkpointCtx (c : Context) : Context :=
  let l := c.past ++ [c.palettes]
  ⟨c.palettes, l.drop (l.length - 25), []⟩

/-- The machine's event set (source lines 23-161), with the internal
debounce-timeout transition as `settle`.  External payloads (ids, values,
the easing function) are carried in the constructors; generated unique ids
come from the machine's counter. -/
inductive MachineEvent where
  | createPalette
  | duplicatePalette (paletteId : String)
  | deletePalette (paletteId : String)
  | changePaletteName (paletteId name : String)
  | importScales (paletteId : String) (scales : JMap Scale) (replace : Bool)
  | changePaletteBackgroundColor (paletteId backgroundColor : String)
  | createScale (paletteId : String)
  | deleteScale (paletteId scaleId : String)
  | duplicateScale (paletteId scaleId : String)
  | changeScaleName (paletteId scaleId name : String)
  | createColor (paletteId scaleId : String) (afterIndex : Option Int)
  | popColor (paletteId scaleId : String)
  | deleteColor (paletteId scaleId : String) (index : Nat)
  | changeColorValue (paletteId scaleId : String) (index : Nat) (value : PColor)
  | createCurveFromScale (paletteId scaleId : String) (curveType : Channel)
  | createNamingSchemeFromScale (paletteId scaleId : String)
  | changeCurveName (paletteId curveId name : String)
  | deleteCurve (paletteId curveId : String)
  | changeScaleCurve (paletteId scaleId : String) (curveType : Channel) (curveId : String)
  | changeScaleNamingScheme (paletteId scaleId : String) (namingSchemeId : Option String)
  | changeCurveValue (paletteId curveId : String) (index : Nat) (value : JNum)
  | changeCurveValues (paletteId curveId : String) (values : List JNum)
  | changeScaleColors (paletteId scaleId : String) (colors : List Color)
  | applyEasingFunction (paletteId curveId : String) (easing : ℚ → ℚ)
  | updateNamingScheme (paletteId : String) (namingScheme : NamingScheme)
  | undo
  | redo
  | settle

/-- Which events are debounced commands, i.e. carry `target: 'debouncing'`
in the source.  UNDO, REDO, CREATE_PALETTE and DUPLICATE_PALETTE have no
target (internal transitions); `settle` is the timeout. -/
def isDebounced : MachineEvent → Bool
  | .createPalette => false
  | .duplicatePalette _ => false
  | .undo => false
  | .redo => false
  | .settle => false
  | _ => true

/-- Which events are the palette navigation commands (CREATE_PALETTE and
DUPLICATE_PALETTE): the two commands with no machine target at all. -/
def isPaletteNav : MachineEvent → Bool
  | .createPalette => true
  | .duplicatePalette _ => true
  | _ => false

/-- The mutation a debounced command applies to the document, together
with the advanced id counter; `none` for a thrown JS exception and for the
non-debounced events (which never reach this function). -/
def applyAction (e : MachineEvent) (n : Nat) (d : Doc) : Option (Doc × Nat) :=
  match e with
  | .deletePalette pid => some (deletePalette pid d, n)
  | .changePaletteName pid name => (changePaletteName pid name d).map ((·, n))
  | .importScales pid scales replace => (importScales pid scales replace d).map ((·, n))
  | .changePaletteBackgroundColor pid bg => (changePaletteBackgroundColor pid bg d).map ((·, n))
  | .createScale pid => (createScale (idStr n) pid d).map ((·, n + 1))
  | .deleteScale pid sid => (deleteScale pid sid d).map ((·, n))
  | .duplicateScale pid sid => (duplicateScale (idStr n) pid sid d).map ((·, n + 1))
  | .changeScaleName pid sid name => (changeScaleName pid sid name d).map ((·, n))
  | .createColor pid sid ai => (createColor pid sid ai d).map ((·, n))
  | .popColor pid sid => (popColor pid sid d).map ((·, n))
  | .deleteColor pid sid i => (deleteColor pid sid i d).map ((·, n))
  | .changeColorValue pid sid i v => (changeColorValue pid sid i v d).map ((·, n))
  | .createCurveFromScale pid sid ct => (createCurveFromScale (idStr n) pid sid ct d).map ((·, n + 1))
  | .createNamingSchemeFromScale pid sid => (createNamingSchemeFromScale (idStr n) pid sid d).map ((·, n + 1))
  | .changeCurveName pid cid name => (changeCurveName pid cid name d).map ((·, n))
  | .deleteCurve pid cid => (deleteCurve pid cid d).map ((·, n))
  | .changeScaleCurve pid sid ct cid => (changeScaleCurve pid sid ct cid d).map ((·, n))
  | .changeScaleNamingScheme pid sid nsid => (changeScaleNamingScheme pid sid nsid d).map ((·, n))
  | .changeCurveValue pid cid i v => (changeCurveValue pid cid i v d).map ((·, n))
  | .changeCurveValues pid cid vs => (changeCurveValues pid cid vs d).map ((·, n))
  | .changeScaleColors pid sid cs => (changeScaleColors pid sid cs d).map ((·, n))
  | .applyEasingFunction pid cid e => (applyEasingFunction pid cid e d).map ((·, n))
  | .updateNamingScheme pid ns => (updateNamingScheme pid ns d).map ((·, n))
  | _ => none

/-- A debounced command's machine step.  From `idle` the idle-exit action
(the checkpoint) runs FIRST, then the command's mutation, and the machine
enters `debouncing`; from `debouncing` the machine re-enters `debouncing`
(restarting the timer) with no checkpoint.  A thrown mutation aborts the
whole transition. -/
def targetedStep (s : MState) (e : MachineEvent) : Option MState :=
  let c1 := if s.phase = Phase.idle then checkpointCtx s.ctx else s.ctx
  (applyAction e s.nextId c1.palettes).map fun r =>
    ⟨Phase.debouncing, ⟨r.1, c1.past, c1.future⟩, r.2⟩

/-- One step of the history machine (source lines 163-533). -/
def stepM (s : MState) (e : MachineEvent) : Option MState :=
  match e with
  | .undo => some ⟨s.phase, undoCtx s.ctx, s.nextId⟩
  | .redo => some ⟨s.phase, redoCtx s.ctx, s.nextId⟩
  | .createPalette =>
      let r := createPalette s.nextId s.ctx.palettes
      some ⟨s.phase, ⟨r.1, s.ctx.past, s.ctx.future⟩, r.2⟩
  | .duplicatePalette pid =>
      (duplicatePalette s.nextId pid s.ctx.palettes).map fun r =>
        ⟨s.phase, ⟨r.1, s.ctx.past, s.ctx.future⟩, r.2⟩
  | .settle =>
      if s.phase = Phase.debouncing then some ⟨Phase.idle, s.ctx, s.nextId⟩ else none
  | e => targetedStep s e

/-- The machine's initial state: empty document, empty stacks, idle. -/
def initState : MState := ⟨Phase.idle, ⟨[], [], []⟩, 0⟩

/-- The states reachable from the initial state by any sequence of
commands, settles, undos and redos. -/
inductive Reachable : MState → Prop where
  | init : Reachable initState
  | step {s s' : MState} {e : MachineEvent} :
      Reachable s → stepM s e = some s' → Reachable s'

/-- The scale stored at a palette id / scale id. -/
def getScale? (d : Doc) (pid sid : String) : Option Scale :=
  (d.get? pid).bind fun p => p.scales.get? sid

/-- The colors array of the scale at a palette id / scale id. -/
def scaleColorsAt (d : Doc) (pid sid : String) : Option (List Color) :=
  (getScale? d pid sid).map Scale.colors

/-- The effective color (getColor) of the scale at an index. -/
def getColorAt (d : Doc) (pid sid : String) (i : Nat) : Option Color :=
  (d.get? pid).bind fun p => (p.scales.get? sid).bind fun sc => getColor p.curves sc i

/-- The values of the curve at a palette id / curve id. -/
def curveValuesAt (d : Doc) (pid cid : String) : Option (List JNum) :=
  ((d.get? pid).bind fun p => p.curves.get? cid).map Curve.values

/-- A minimal palette with the given id and contents. -/
def mkPalette (pid : String) (scales : JMap Scale) (curves : JMap Curve)
    (nss : JMap NamingScheme) : Palette :=
  ⟨pid, "P", "#ffffff", scales, curves, nss⟩

/-- Sample document Q for the undo/redo evaluation. -/
def docQ : Doc := [("q", mkPalette "q" [] [] [])]

/-- Sample document A for the undo/redo evaluation. -/
def docA : Doc := [("a", mkPalette "a" [] [] [])]

/-- Sample machine state: present document empty, one past entry Q, one
future entry A. -/
def c1State : MState := ⟨.idle, ⟨[], [docQ], [docA]⟩, 0⟩

/-- Sample scale with a single color and no naming scheme. -/
def c2Scale : Scale := ⟨"s", "sc", [⟨.num 0, .num 50, .num 50⟩], ChannelMap.empty, none⟩

/-- Sample document for the POP_COLOR evaluation. -/
def c2Doc : Doc := [("p", mkPalette "p" [("s", c2Scale)] [] [])]

/-- The machine state after DELETE_PALETTE from the initial (idle) state:
the checkpoint ran on idle's exit. -/
def dbs1 : MState := ⟨.debouncing, ⟨[], [[]], []⟩, 0⟩

/-- The machine state after the debounce timeout from dbs1: no push. -/
def dbs2 : MState := ⟨.idle, ⟨[], [[]], []⟩, 0⟩

/-- Sample curve for the attach counterexample: lightness values [50]. -/
def c5Curve : Curve := ⟨"c", "k", .lightness, [.num 50]⟩

/-- Sample scale for the attach counterexample: one color, lightness 10,
no curves attached. -/
def c5Scale : Scale := ⟨"s", "sc", [⟨.num 0, .num 0, .num 10⟩], ChannelMap.empty, none⟩

/-- Sample palette for the attach counterexample. -/
def c5Pal : Palette := mkPalette "p" [("s", c5Scale)] [("c", c5Curve)] []

/-- Sample document for the attach counterexample and the preservation
witness. -/
def c5Doc : Doc := [("p", c5Pal)]

/-- Sample curve with a single value for the easing counterexample. -/
def c8Curve : Curve := ⟨"c", "k", .lightness, [.num 5]⟩

/-- Sample document for the easing counterexample. -/
def c8Doc : Doc := [("p", mkPalette "p" [] [("c", c8Curve)] [])]

/-- Sample curve with three linear values for the easing witness. -/
def c8wCurve : Curve := ⟨"c", "k", .lightness, [.num 0, .num 10, .num 20]⟩

/-- Sample document for the easing witness. -/
def c8wDoc : Doc := [("p", mkPalette "p" [] [("c", c8wCurve)] [])]

/-- Sample naming scheme with three names. -/
def c9Scheme : NamingScheme := ⟨"n", "N", ["a", "b", "c"]⟩

/-- Sample one-color scale for the resize witness. -/
def c9Scale : Scale := ⟨"s", "sc", [⟨.num 1, .num 2, .num 3⟩], ChannelMap.empty, none⟩

/-- Sample document for the resize witness. -/
def c9Doc : Doc := [("p", mkPalette "p" [("s", c9Scale)] [] [("n", c9Scheme)])]

/-- Sample scale with an attached naming scheme for the detach witness. -/
def c10Scale : Scale := ⟨"s", "sc", [⟨.num 1, .num 2, .num 3⟩], ChannelMap.empty, some "n"⟩

/-- Sample document for the detach witness. -/
def c10Doc : Doc := [("p", mkPalette "p" [("s", c10Scale)] [] [("n", c9Scheme)])]

/-- Sample state with one palette for the palette-operation witness. -/
def c7State : MState := ⟨.idle, ⟨[("p", mkPalette "p" [] [] [])], [], []⟩, 5⟩

/-- The state after CREATE_PALETTE from c7State. -/
def c7s1 : MState :=
  ⟨.idle, ⟨(createPalette 5 c7State.ctx.palettes).1, [], []⟩,
    (createPalette 5 c7State.ctx.palettes).2⟩

/-- The state after DUPLICATE_PALETTE "p" from c7State. -/
def c7s2 : MState :=
  ⟨.idle, ⟨c7State.ctx.palettes.set "uid-5"
    { mkPalette "p" [] [] [] with id := "uid-5", name := "P (copy)" }, [], []⟩, 6⟩

/-- The state after DELETE_PALETTE "p" from c7State. -/
def c7s3 : MState := ⟨.debouncing, ⟨[], [c7State.ctx.palettes], []⟩, 5⟩

/-! Helper lemmas about the JS record, color and channel-map operations. -/

theorem JMap.get?_set_self {α : Type} (m : JMap α) (k : String) (v : α) :
    (m.set k v).get? k = some v := by
  induction m with
  | nil => simp [JMap.set, JMap.get?]
  | cons p rest ih =>
      obtain ⟨ka, va⟩ := p
      by_cases h : ka = k <;> simp [JMap.set, JMap.get?, h, ih]

theorem JMap.get?_set_ne {α : Type} (m : JMap α) (k k' : String) (v : α) (h : k ≠ k') :
    (m.set k v).get? k' = m.get? k' := by
  induction m with
  | nil => simp [JMap.set, JMap.get?, h]
  | cons p rest ih =>
      obtain ⟨ka, va⟩ := p
      by_cases hk : ka = k
      · subst hk
        simp [JMap.set, JMap.get?, h]
      · simp [JMap.set, JMap.get?, hk, ih]

theorem colorGet_setc_self (c : Color) (ch : Channel) (v : JNum) :
    (c.setc ch v).get ch = v := by
  cases ch <;> rfl

theorem colorGet_setc_ne (c : Color) (ch ch' : Channel) (v : JNum) (h : ch' ≠ ch) :
    (c.setc ch v).get ch' = c.get ch' := by
  cases ch <;> cases ch' <;> first | rfl | exact absurd rfl h

theorem chmapGet_setc_self (m : ChannelMap) (ch : Channel) (v : Option String) :
    (m.setc ch v).get ch = v := by
  cases ch <;> rfl

theorem chmapGet_setc_ne (m : ChannelMap) (ch ch' : Channel) (v : Option String)
    (h : ch' ≠ ch) : (m.setc ch v).get ch' = m.get ch' := by
  cases ch <;> cases ch' <;> first | rfl | exact absurd rfl h

theorem JNum.jadd_num_zero (x : JNum) : JNum.jadd x (.num 0) = x := by
  cases x <;> simp [JNum.jadd]

theorem seqOpt_isSome {α : Type} {l : List (Option α)}
    (h : ∀ x ∈ l, x.isSome = true) : (seqOpt l).isSome = true := by
  induction l with
  | nil => simp [seqOpt]
  | cons a rest ih =>
      cases a with
      | none =>
          have := h none (by simp)
          simp at this
      | some b =>
          have hr := ih fun x hx => h x (by simp [hx])
          obtain ⟨out, hout⟩ := Option.isSome_iff_exists.mp hr
          simp [seqOpt, hout]

theorem seqOpt_getElem? {α : Type} {l : List (Option α)} {out : List α}
    (h : seqOpt l = some out) :
    out.length = l.length ∧ ∀ j : Nat, out[j]? = (l[j]?).join := by
  induction l generalizing out with
  | nil =>
      simp [seqOpt] at h
      subst h
      constructor
      · rfl
      · intro j
        simp
  | cons a rest ih =>
      cases a with
      | none => simp [seqOpt] at h
      | some b =>
          simp only [seqOpt, Option.map_eq_some'] at h
          obtain ⟨out', hout', rfl⟩ := h
          obtain ⟨hlen, helem⟩ := ih hout'
          constructor
          · simp [hlen]
          · intro j
            cases j with
            | zero => simp
            | succ j' => simpa using helem j'

theorem mapWithIndex_getElem? {α β : Type} (f : Nat → α → β) (k : Nat) (l : List α)
    (j : Nat) : (mapWithIndex f k l)[j]? = (l[j]?).map (f (k + j)) := by
  induction l generalizing k j with
  | nil => simp [mapWithIndex]
  | cons a rest ih =>
      cases j with
      | zero => simp [mapWithIndex]
      | succ j' =>
          simp only [mapWithIndex, List.getElem?_cons_succ, ih (k + 1) j']
          have : k + 1 + j' = k + (j' + 1) := by omega
          rw [this]

theorem mapWithIndex_length {α β : Type} (f : Nat → α → β) (k : Nat) (l : List α) :
    (mapWithIndex f k l).length = l.length := by
  induction l generalizing k with
  | nil => rfl
  | cons a rest ih => simp [mapWithIndex, ih]

theorem range_map_getD {α : Type} (l : List α) (dflt : α) (N : Nat) :
    (List.range N).map (fun i => l.getD i dflt) =
      l.take N ++ List.replicate (N - l.length) dflt := by
  induction l generalizing N with
  | nil =>
      induction N with
      | zero => simp
      | succ m ihm =>
          rw [List.range_succ]
          simp only [List.map_append, ihm]
          simp [List.replicate_succ']
  | cons a t ih =>
      cases N with
      | zero => simp
      | succ m =>
          rw [List.range_succ_eq_map]
          simp only [List.map_cons, List.map_map]
          have : ((fun i => List.getD (a :: t) i dflt) ∘ Nat.succ) =
              fun i => t.getD i dflt := by
            funext i
            simp [List.getD]
          rw [this, ih]
          simp [List.getD, Nat.succ_sub_succ]

theorem range_map_getElemD {α : Type} (l : List α) (dflt : α) (N : Nat) :
    (List.range N).map (fun i => (l[i]?).getD dflt) =
      l.take N ++ List.replicate (N - l.length) dflt := by
  have h := range_map_getD l dflt N
  simpa [List.getD] using h

/-! Evaluation theorems for the claims settled by concrete runs. -/

/-- C1: evaluation at the failing input.  With palettes P = [] (empty
document), past = [Q] and future = [A], UNDO followed immediately by REDO
leaves the document at A, the oldest future entry, not at the pre-undo
value P: UNDO pushes the present onto the END of `future` while REDO pops
`future[0]` off the FRONT, contradicting the code's own comments ("insert
at the beginning of the future" / "the last state in the future"). -/
theorem c1_undo_redo_queue_eval :
    ((stepM c1State .undo).bind (fun s => stepM s .redo)).map (fun s => s.ctx.palettes) =
      some docA ∧ c1State.ctx.palettes ≠ docA := by
  decide

/-- C2: evaluation at the failing input.  POP_COLOR on a scale with exactly
one color and no naming scheme pops the only color, leaving the colors
array empty: the source guard `if (colors.length > 1 || namingSchemeId !=
null) return` is inverted, so the pop runs exactly when it would drop the
count below 1 (DELETE_COLOR next to it implements the intended floor). -/
theorem c2_pop_color_empties_eval :
    scaleColorsAt c2Doc "p" "s" = some [⟨.num 0, .num 50, .num 50⟩] ∧
    (popColor "p" "s" c2Doc).bind (fun d => scaleColorsAt d "p" "s") = some [] := by
  decide

/-- C6: evaluation at the failing input.  CREATE_COLOR on an empty scale
(afterIndex null) inserts the corrupt partial object with hue and
saturation absent and lightness `Math.max(0, undefined - 10) = NaN`, not a
color synthesized from a random CSS name: `{...colors[afterIndex]}` is the
truthy empty object, so the `if (!color)` branch never runs. -/
theorem c6_create_color_empty_eval :
    createColorNewColors 0 [] none = [⟨none, none, some JNum.nan⟩] := by
  decide

/-- C3 counterexample: a concrete run in which the checkpoint (push to
past, truncate, clear future) happens on the idle→debouncing transition
(exit of idle), not on the debouncing→idle timeout, whose step leaves the
stacks untouched. -/
theorem c3_checkpoint_transition_counterexample :
    stepM initState (.deletePalette "x") = some dbs1 ∧
    dbs1.phase = .debouncing ∧
    dbs1.ctx.past = initState.ctx.past ++ [initState.ctx.palettes] ∧
    stepM dbs1 .settle = some dbs2 ∧
    dbs2.phase = .idle ∧
    dbs2.ctx.past = dbs1.ctx.past ∧
    dbs2.ctx.past ≠ dbs1.ctx.past ++ [dbs1.ctx.palettes] := by
  decide

/-- C7 counterexample: DELETE_PALETTE carries `target: 'debouncing'` in the
source, so from idle it transitions into the debouncing state (and its exit
of idle runs the checkpoint). -/
theorem c7_delete_palette_debounces_counterexample :
    stepM initState (.deletePalette "x") = some dbs1 ∧ dbs1.phase = .debouncing := by
  decide

/-- C5 counterexample: CHANGE_SCALE_CURVE attaching an EXISTING curve
(values [50]) to the lightness channel of a scale whose effective lightness
was 10 changes the effective color: the stored channel value is zeroed and
the curve's value takes over, so getColor moves from lightness 10 to 50. -/
theorem c5_attach_existing_counterexample :
    getColorAt c5Doc "p" "s" 0 = some ⟨.num 0, .num 0, .num 10⟩ ∧
    (changeScaleCurve "p" "s" .lightness "c" c5Doc).bind (fun d => getColorAt d "p" "s" 0) =
      some ⟨.num 0, .num 0, .num 50⟩ ∧
    (⟨.num 0, .num 0, .num 10⟩ : Color) ≠ ⟨.num 0, .num 0, .num 50⟩ := by
  refine ⟨by decide, ?_, by decide⟩
  simp [changeScaleCurve, c5Doc, c5Pal, c5Scale, c5Curve, getColorAt, getColor, chanVal,
    JMap.get?, JMap.set, putScale, Color.setc, ChannelMap.setc, ChannelMap.get, Color.get,
    ChannelMap.empty, mkPalette, JNum.jaddU, JNum.jadd]

/-- C8 counterexample: APPLY_EASING_FUNCTION on a curve with exactly one
(non-null) value is not a no-op: the interpolation parameter is
`0 / 0 = NaN` and the single value is rewritten to NaN. -/
theorem c8_easing_singleton_counterexample :
    curveValuesAt c8Doc "p" "c" = some [.num 5] ∧
    (applyEasingFunction "p" "c" (fun t => t) c8Doc).bind
      (fun d => curveValuesAt d "p" "c") = some [JNum.nan] ∧
    JNum.nan ≠ JNum.num 5 := by
  decide

/-! The history-cap invariant of the machine. -/

theorem targetedStep_stacks {s s' : MState} {e : MachineEvent}
    (h : targetedStep s e = some s') :
    s'.phase = .debouncing ∧
    (s.phase = .idle →
      s'.ctx.past = (s.ctx.past ++ [s.ctx.palettes]).drop (s.ctx.past.length + 1 - 25) ∧
      s'.ctx.future = []) ∧
    (s.phase = .debouncing →
      s'.ctx.past = s.ctx.past ∧ s'.ctx.future = s.ctx.future) := by
  unfold targetedStep at h
  by_cases hp : s.phase = Phase.idle
  · rw [if_pos hp] at h
    obtain ⟨r, hr, hs'⟩ := Option.map_eq_some'.mp h
    subst hs'
    refine ⟨rfl, fun _ => ?_, fun hd => ?_⟩
    · constructor
      · simp [checkpointCtx]
      · rfl
    · rw [hp] at hd
      cases hd
  · rw [if_neg hp] at h
    obtain ⟨r, hr, hs'⟩ := Option.map_eq_some'.mp h
    subst hs'
    exact ⟨rfl, fun hi => absurd hi hp, fun _ => ⟨rfl, rfl⟩⟩

theorem targetedStep_bound {s s' : MState} {e : MachineEvent}
    (h : targetedStep s e = some s')
    (hs : s.ctx.past.length + s.ctx.future.length ≤ 25) :
    s'.ctx.past.length + s'.ctx.future.length ≤ 25 := by
  obtain ⟨_, hidle, hdeb⟩ := targetedStep_stacks h
  by_cases hp : s.phase = Phase.idle
  · obtain ⟨h1, h2⟩ := hidle hp
    rw [h1, h2]
    simp only [List.length_drop, List.length_append, List.length_nil, List.length_cons]
    omega
  · have hp2 : s.phase = Phase.debouncing := by
      cases hph : s.phase
      · exact absurd hph hp
      · rfl
    obtain ⟨h1, h2⟩ := hdeb hp2
    rw [h1, h2]
    exact hs

theorem stepM_stack_bound {s s' : MState} {e : MachineEvent}
    (h : stepM s e = some s')
    (hs : s.ctx.past.length + s.ctx.future.length ≤ 25) :
    s'.ctx.past.length + s'.ctx.future.length ≤ 25 := by
  cases e
  case undo =>
      simp only [stepM, Option.some.injEq] at h
      subst h
      unfold undoCtx
      cases hl : s.ctx.past.getLast? with
      | none => exact hs
      | some prev =>
          have hne : s.ctx.past ≠ [] := by
            intro h0
            rw [h0] at hl
            simp at hl
          have hpos : 0 < s.ctx.past.length := List.length_pos.mpr hne
          simp only [List.length_dropLast, List.length_append, List.length_cons,
            List.length_nil]
          omega
  case redo =>
      simp only [stepM, Option.some.injEq] at h
      subst h
      unfold redoCtx
      cases hf : s.ctx.future with
      | nil => exact hs
      | cons next rest =>
          rw [hf] at hs
          simp only [List.length_append, List.length_cons, List.length_nil] at hs ⊢
          omega
  case createPalette =>
      simp only [stepM, Option.some.injEq] at h
      subst h
      exact hs
  case duplicatePalette pid =>
      simp only [stepM] at h
      obtain ⟨r, _, hs'⟩ := Option.map_eq_some'.mp h
      subst hs'
      exact hs
  case settle =>
      simp only [stepM] at h
      by_cases hp : s.phase = Phase.debouncing
      · rw [if_pos hp] at h
        obtain rfl := Option.some.inj h
        exact hs
      · rw [if_neg hp] at h
        cases h
  all_goals
    simp only [stepM] at h
    exact targetedStep_bound h hs

theorem reachable_stack_bound {s : MState} (hr : Reachable s) :
    s.ctx.past.length + s.ctx.future.length ≤ 25 := by
  induction hr with
  | init => simp [initState]
  | step _ hstep ih => exact stepM_stack_bound hstep ih

/-- C4: for every reachable machine state (any sequence of commands,
settles, undos and redos from the empty initial state) the past stack holds
at most 25 entries; and when the past is full, the checkpoint drops the
OLDEST entry — the front of the list, since pushes append at the back —
before appending the new snapshot, and clears the future. -/
theorem c4_history_cap (s : MState) (hr : Reachable s) :
    s.ctx.past.length ≤ 25 ∧
    (s.ctx.past.length = 25 →
      (checkpointCtx s.ctx).past = s.ctx.past.drop 1 ++ [s.ctx.palettes] ∧
      (checkpointCtx s.ctx).future = []) := by
  have hb := reachable_stack_bound hr
  refine ⟨by omega, fun h25 => ⟨?_, rfl⟩⟩
  simp only [checkpointCtx]
  cases hp : s.ctx.past with
  | nil =>
      rw [hp] at h25
      simp at h25
  | cons a t =>
      rw [hp] at h25
      simp only [List.length_cons] at h25
      have hlen : ((a :: t) ++ [s.ctx.palettes]).length - 25 = 1 := by
        simp only [List.length_append, List.length_cons, List.length_nil]
        omega
      rw [hlen]
      simp

/-- Witness for c4_history_cap at the (reachable) initial state. -/
theorem c4_history_cap_witness :
    initState.ctx.past.length ≤ 25 ∧
    (initState.ctx.past.length = 25 →
      (checkpointCtx initState.ctx).past =
        initState.ctx.past.drop 1 ++ [initState.ctx.palettes] ∧
      (checkpointCtx initState.ctx).future = []) :=
  c4_history_cap initState Reachable.init

/-- C3 (amended): the checkpoint — pushing the then-current (pre-edit)
snapshot onto past, truncating past to the most recent 25 entries, and
clearing future — runs on the idle→debouncing transition (the exit action
of idle), not on the debouncing→idle timeout: a debounced command arriving
in debouncing leaves both stacks untouched, the timeout (settle) leaves the
whole context untouched, and the two palette navigation commands
(CREATE_PALETTE / DUPLICATE_PALETTE) leave phase and stacks untouched. -/
theorem c3_checkpoint_on_idle_exit (s s' : MState) (e : MachineEvent)
    (h : stepM s e = some s') :
    (isDebounced e = true → s.phase = .idle →
      s'.phase = .debouncing ∧
      s'.ctx.past = (s.ctx.past ++ [s.ctx.palettes]).drop (s.ctx.past.length + 1 - 25) ∧
      s'.ctx.future = []) ∧
    (isDebounced e = true → s.phase = .debouncing →
      s'.ctx.past = s.ctx.past ∧ s'.ctx.future = s.ctx.future) ∧
    (e = .settle → s'.ctx = s.ctx) ∧
    (isPaletteNav e = true →
      s'.phase = s.phase ∧ s'.ctx.past = s.ctx.past ∧ s'.ctx.future = s.ctx.future) := by
  cases e
  case undo =>
    exact ⟨fun hd => absurd hd (by simp [isDebounced]), fun hd => absurd hd (by simp [isDebounced]),
      fun he => MachineEvent.noConfusion he, fun hn => absurd hn (by simp [isPaletteNav])⟩
  case redo =>
    exact ⟨fun hd => absurd hd (by simp [isDebounced]), fun hd => absurd hd (by simp [isDebounced]),
      fun he => MachineEvent.noConfusion he, fun hn => absurd hn (by simp [isPaletteNav])⟩
  case createPalette =>
    simp only [stepM, Option.some.injEq] at h
    subst h
    exact ⟨fun hd => absurd hd (by simp [isDebounced]), fun hd => absurd hd (by simp [isDebounced]),
      fun he => MachineEvent.noConfusion he, fun _ => ⟨rfl, rfl, rfl⟩⟩
  case duplicatePalette pid =>
    simp only [stepM] at h
    obtain ⟨r, _, rfl⟩ := Option.map_eq_some'.mp h
    exact ⟨fun hd => absurd hd (by simp [isDebounced]), fun hd => absurd hd (by simp [isDebounced]),
      fun he => MachineEvent.noConfusion he, fun _ => ⟨rfl, rfl, rfl⟩⟩
  case settle =>
    simp only [stepM] at h
    by_cases hp : s.phase = Phase.debouncing
    · rw [if_pos hp] at h
      obtain rfl := Option.some.inj h
      exact ⟨fun hd => absurd hd (by simp [isDebounced]), fun hd => absurd hd (by simp [isDebounced]),
        fun _ => rfl, fun hn => absurd hn (by simp [isPaletteNav])⟩
    · rw [if_neg hp] at h
      cases h
  all_goals
    simp only [stepM] at h
    obtain ⟨hph, hidle, hdeb⟩ := targetedStep_stacks h
    exact ⟨fun _ hi => ⟨hph, (hidle hi).1, (hidle hi).2⟩, fun _ => hdeb,
      fun he => MachineEvent.noConfusion he, fun hn => absurd hn (by simp [isPaletteNav])⟩

/-- Witness for c3_checkpoint_on_idle_exit: the DELETE_PALETTE step from
the initial (idle) state checkpoints the pre-edit snapshot. -/
theorem c3_checkpoint_on_idle_exit_witness :
    dbs1.phase = .debouncing ∧
    dbs1.ctx.past =
      (initState.ctx.past ++ [initState.ctx.palettes]).drop
        (initState.ctx.past.length + 1 - 25) ∧
    dbs1.ctx.future = [] :=
  (c3_checkpoint_on_idle_exit initState dbs1 (.deletePalette "x") (by decide)).1
    (by decide) rfl

/-- C7 (amended): CREATE_PALETTE and DUPLICATE_PALETTE never cause a
transition into the debouncing state — they preserve the phase and both
history stacks (applied immediately, outside the debounced/checkpointed
path) — but DELETE_PALETTE does carry `target: 'debouncing'`: from idle it
transitions into debouncing (and is therefore checkpointed). -/
theorem c7_palette_ops_transitions (s s1 s2 s3 : MState) (pid pid2 : String) :
    (stepM s .createPalette = some s1 →
      s1.phase = s.phase ∧ s1.ctx.past = s.ctx.past ∧ s1.ctx.future = s.ctx.future) ∧
    (stepM s (.duplicatePalette pid) = some s2 →
      s2.phase = s.phase ∧ s2.ctx.past = s.ctx.past ∧ s2.ctx.future = s.ctx.future) ∧
    (s.phase = .idle → stepM s (.deletePalette pid2) = some s3 →
      s3.phase = .debouncing) := by
  refine ⟨?_, ?_, ?_⟩
  · intro h
    simp only [stepM, Option.some.injEq] at h
    subst h
    exact ⟨rfl, rfl, rfl⟩
  · intro h
    simp only [stepM] at h
    obtain ⟨r, _, rfl⟩ := Option.map_eq_some'.mp h
    exact ⟨rfl, rfl, rfl⟩
  · intro _ h
    simp only [stepM] at h
    exact (targetedStep_stacks h).1

/-- Witness for c7_palette_ops_transitions at a concrete one-palette
state. -/
theorem c7_palette_ops_transitions_witness :
    (c7s1.phase = c7State.phase ∧ c7s1.ctx.past = c7State.ctx.past ∧
      c7s1.ctx.future = c7State.ctx.future) ∧
    (c7s2.phase = c7State.phase ∧ c7s2.ctx.past = c7State.ctx.past ∧
      c7s2.ctx.future = c7State.ctx.future) ∧
    c7s3.phase = Phase.debouncing :=
  ⟨(c7_palette_ops_transitions c7State c7s1 c7s2 c7s3 "p" "p").1 (by decide),
   (c7_palette_ops_transitions c7State c7s1 c7s2 c7s3 "p" "p").2.1 (by decide),
   (c7_palette_ops_transitions c7State c7s1 c7s2 c7s3 "p" "p").2.2 rfl (by decide)⟩

/-- C9: attaching a naming scheme whose names list has length N to a scale
with a non-empty colors array resizes the colors to exactly length N: the
first N colors are kept in order (surplus dropped) and, when the scale had
fewer than N colors, the new trailing slots are copies of the previous
last color. -/
theorem c9_naming_scheme_resize
    (d : Doc) (pid sid nsid : String) (p : Palette) (sc : Scale)
    (ns : NamingScheme) (last : Color)
    (hp : d.get? pid = some p) (hs : p.scales.get? sid = some sc)
    (hnz : nsid ≠ "")
    (hns : p.namingSchemes.get? nsid = some ns)
    (hl : sc.colors.getLast? = some last) :
    changeScaleNamingScheme pid sid (some nsid) d =
      some (putScale d pid p sid
        { sc with namingSchemeId := some nsid,
                  colors := sc.colors.take ns.names.length ++
                    List.replicate (ns.names.length - sc.colors.length) last }) := by
  simp [changeScaleNamingScheme, hp, hs, if_neg hnz, hns, hl, range_map_getD, range_map_getElemD]

/-- Witness for c9_naming_scheme_resize: a one-color scale padded to the
scheme's three names. -/
theorem c9_naming_scheme_resize_witness :
    changeScaleNamingScheme "p" "s" (some "n") c9Doc =
      some (putScale c9Doc "p" (mkPalette "p" [("s", c9Scale)] [] [("n", c9Scheme)]) "s"
        { c9Scale with namingSchemeId := some "n",
                       colors := c9Scale.colors.take c9Scheme.names.length ++
                         List.replicate (c9Scheme.names.length - c9Scale.colors.length)
                           ⟨.num 1, .num 2, .num 3⟩ }) :=
  c9_naming_scheme_resize c9Doc "p" "s" "n"
    (mkPalette "p" [("s", c9Scale)] [] [("n", c9Scheme)]) c9Scale c9Scheme
    ⟨.num 1, .num 2, .num 3⟩ (by decide) (by decide) (by decide) (by decide) (by decide)

/-- C10: CHANGE_SCALE_NAMING_SCHEME with a null namingSchemeId rewrites
exactly the scale's namingSchemeId field to null and nothing else: the
result is the input document with only that scale's record replaced, its
single changed field being namingSchemeId (the colors, curves and name of
the scale and every other palette, scale, curve and naming scheme —
including the detached scheme itself — are carried over unchanged). -/
theorem c10_detach_naming_scheme_frame
    (d : Doc) (pid sid : String) (p : Palette) (sc : Scale)
    (hp : d.get? pid = some p) (hs : p.scales.get? sid = some sc) :
    changeScaleNamingScheme pid sid none d =
      some (putScale d pid p sid { sc with namingSchemeId := none }) ∧
    (changeScaleNamingScheme pid sid none d).bind (fun d' => getScale? d' pid sid) =
      some { sc with namingSchemeId := none } := by
  have h1 : changeScaleNamingScheme pid sid none d =
      some (putScale d pid p sid { sc with namingSchemeId := none }) := by
    simp [changeScaleNamingScheme, hp, hs]
  refine ⟨h1, ?_⟩
  rw [h1]
  simp [getScale?, putScale, JMap.get?_set_self]

/-- Witness for c10_detach_naming_scheme_frame at a concrete document whose
scale has a scheme attached. -/
theorem c10_detach_naming_scheme_frame_witness :
    changeScaleNamingScheme "p" "s" none c10Doc =
      some (putScale c10Doc "p" (mkPalette "p" [("s", c10Scale)] [] [("n", c9Scheme)]) "s"
        { c10Scale with namingSchemeId := none }) ∧
    (changeScaleNamingScheme "p" "s" none c10Doc).bind (fun d' => getScale? d' "p" "s") =
      some { c10Scale with namingSchemeId := none } :=
  c10_detach_naming_scheme_frame c10Doc "p" "s"
    (mkPalette "p" [("s", c10Scale)] [] [("n", c9Scheme)]) c10Scale (by decide) (by decide)

/-- C8 (amended): when the curve exists and its first and last values are
both present (non-null), APPLY_EASING_FUNCTION rewrites EVERY value of the
curve — the endpoints included — to the eased interpolation between the
first and last values at t = index/(length-1), rounded to one decimal
place (for a single-value curve t is 0/0 = NaN and the value becomes NaN);
the operation is a no-op only when an endpoint is missing, i.e. for an
empty values array. -/
theorem c8_apply_easing_formula
    (d : Doc) (pid cid : String) (e : ℚ → ℚ) (p : Palette) (cu : Curve) (s en : JNum)
    (hp : d.get? pid = some p) (hcu : p.curves.get? cid = some cu)
    (h0 : cu.values[0]? = some s) (hL : cu.values.getLast? = some en) :
    (applyEasingFunction pid cid e d).bind (fun d' => curveValuesAt d' pid cid) =
      some ((List.range cu.values.length).map fun i =>
        JNum.jround1 (jlerp s en (jease e (tOf cu.values.length i)))) := by
  simp [applyEasingFunction, hp, hcu, h0, hL, curveValuesAt, putCurve, JMap.get?_set_self]

/-- Witness for c8_apply_easing_formula on a three-value curve with the
identity easing. -/
theorem c8_apply_easing_formula_witness :
    (applyEasingFunction "p" "c" (fun t => t) c8wDoc).bind
      (fun d' => curveValuesAt d' "p" "c") =
      some ((List.range c8wCurve.values.length).map fun i =>
        JNum.jround1 (jlerp (.num 0) (.num 20) (jease (fun t => t)
          (tOf c8wCurve.values.length i)))) :=
  c8_apply_easing_formula c8wDoc "p" "c" (fun t => t)
    (mkPalette "p" [] [("c", c8wCurve)] []) c8wCurve (.num 0) (.num 20)
    (by decide) (by decide) (by decide) (by decide)

/-! Decomposition lemmas for getColor, and the curve attach/detach
preservation theorem. -/

theorem lt_of_getElem?_some {α : Type} {l : List α} {n : Nat} {a : α}
    (h : l[n]? = some a) : n < l.length := by
  by_contra hge
  rw [List.getElem?_eq_none (by omega)] at h
  cases h

theorem getColor_parts {curves : JMap Curve} {scale : Scale} {i : Nat} {c : Color}
    (h : getColor curves scale i = some c) :
    ∃ c0, scale.colors[i]? = some c0 ∧
      ∀ ch, chanVal curves scale c0 ch i = some (c.get ch) := by
  cases hx : scale.colors[i]? with
  | none =>
      simp only [getColor, hx] at h
      exact Option.noConfusion h
  | some c0 =>
      simp only [getColor, hx] at h
      cases hh : chanVal curves scale c0 .hue i with
      | none => rw [hh] at h; simp at h
      | some vh =>
          rw [hh] at h
          cases hsv : chanVal curves scale c0 .saturation i with
          | none => rw [hsv] at h; simp at h
          | some vs =>
              rw [hsv] at h
              cases hlv : chanVal curves scale c0 .lightness i with
              | none => rw [hlv] at h; simp at h
              | some vl =>
                  rw [hlv] at h
                  simp only [Option.some.injEq] at h
                  subst h
                  refine ⟨c0, rfl, fun ch => ?_⟩
                  cases ch
                  · exact hh
                  · exact hsv
                  · exact hlv

theorem getColor_build {curves : JMap Curve} {scale : Scale} {i : Nat}
    {c0 : Color} {c : Color}
    (hx : scale.colors[i]? = some c0)
    (hch : ∀ ch, chanVal curves scale c0 ch i = some (c.get ch)) :
    getColor curves scale i = some c := by
  simp only [getColor, hx, hch Channel.hue, hch Channel.saturation, hch Channel.lightness]
  cases c
  rfl

theorem forall_mem_mapWithIndex {α β : Type} {P : β → Prop} (f : Nat → α → β)
    (k : Nat) (l : List α) (h : ∀ j a, l[j]? = some a → P (f (k + j) a)) :
    ∀ x ∈ mapWithIndex f k l, P x := by
  induction l generalizing k with
  | nil =>
      intro x hx
      simp [mapWithIndex] at hx
  | cons a rest ih =>
      intro x hx
      simp only [mapWithIndex, List.mem_cons] at hx
      rcases hx with rfl | hx
      · have := h 0 a (by simp)
        simpa using this
      · refine ih (k + 1) (fun j b hj => ?_) x hx
        have hb := h (j + 1) b (by simpa using hj)
        have harith : k + (j + 1) = k + 1 + j := by omega
        rwa [harith] at hb

/-- C5 (amended): getColor is preserved at every resolvable index when a
curve is CREATED from the scale for a channel (the new curve records the
channel's effective values and the stored values become zero offsets) and
when a channel's curve is DETACHED via CHANGE_SCALE_CURVE with an empty
curve id (the effective values are written back as absolutes); attaching an
EXISTING curve via CHANGE_SCALE_CURVE does not preserve getColor — it
zeroes the offsets so the channel's effective values become the attached
curve's values (see the counterexample). -/
theorem c5_attach_detach_preserve
    (d : Doc) (pid sid fid : String) (ct chD : Channel) (i : Nat)
    (p : Palette) (sc : Scale) (c : Color)
    (hp : d.get? pid = some p)
    (hs : p.scales.get? sid = some sc)
    (hall : ∀ j, j < sc.colors.length → (getColor p.curves sc j).isSome = true)
    (hc : getColor p.curves sc i = some c)
    (hfresh : p.curves.get? fid = none) :
    (createCurveFromScale fid pid sid ct d).bind
      (fun d' => getColorAt d' pid sid i) = some c ∧
    (changeScaleCurve pid sid chD "" d).bind
      (fun d' => getColorAt d' pid sid i) = some c := by
  obtain ⟨c0, hx0, hch⟩ := getColor_parts hc
  have hilen : i < sc.colors.length := lt_of_getElem?_some hx0
  constructor
  · -- CREATE_CURVE_FROM_SCALE preserves getColor
    have hfs : ∀ x ∈ (List.range sc.colors.length).map
        (fun j => (getColor p.curves sc j).map (·.get ct)), x.isSome = true := by
      intro x hxm
      obtain ⟨j, hj, rfl⟩ := List.mem_map.mp hxm
      obtain ⟨cj, hcj⟩ := Option.isSome_iff_exists.mp (hall j (List.mem_range.mp hj))
      simp [hcj]
    obtain ⟨values, hv⟩ := Option.isSome_iff_exists.mp (seqOpt_isSome hfs)
    obtain ⟨hvlen, hvelem⟩ := seqOpt_getElem? hv
    have hvi : values[i]? = some (c.get ct) := by
      rw [hvelem i, List.getElem?_map, List.getElem?_range hilen]
      simp [hc]
    simp [createCurveFromScale, hp, hs, hv, getColorAt, JMap.get?_set_self]
    apply getColor_build
    · rw [List.getElem?_map, hx0]
      rfl
    · intro ch
      by_cases hcc : ch = ct
      · subst hcc
        simp only [chanVal, chmapGet_setc_self, JMap.get?_set_self,
          Option.map_some', colorGet_setc_self, hvi, JNum.jaddU,
          JNum.jadd_num_zero]
      · have hget : (sc.curves.setc ct (some fid)).get ch = sc.curves.get ch :=
          chmapGet_setc_ne _ _ _ _ hcc
        have hcol : (c0.setc ct (.num 0)).get ch = c0.get ch :=
          colorGet_setc_ne _ _ _ _ hcc
        have horig := hch ch
        cases hsc : sc.curves.get ch with
        | none =>
            simp only [chanVal, hsc] at horig
            simp only [chanVal, hget, hsc, hcol]
            exact horig
        | some cid =>
            simp only [chanVal, hsc] at horig
            obtain ⟨cu, hcu, heq⟩ := Option.map_eq_some'.mp horig
            have hcidne : fid ≠ cid := by
              intro hfe
              rw [← hfe, hfresh] at hcu
              cases hcu
            simp only [chanVal, hget, hsc, JMap.get?_set_ne _ _ _ _ hcidne, hcu,
              Option.map_some', hcol, heq]
  · -- CHANGE_SCALE_CURVE detach preserves getColor
    have hfs2 : ∀ x ∈ mapWithIndex (fun j cc =>
        (getColor p.curves sc j).map fun eff => cc.setc chD (eff.get chD))
        0 sc.colors, x.isSome = true := by
      refine forall_mem_mapWithIndex _ 0 sc.colors fun j a hj => ?_
      obtain ⟨cj, hcj⟩ :=
        Option.isSome_iff_exists.mp (hall j (lt_of_getElem?_some hj))
      simp [hcj]
    obtain ⟨colors2, hv2⟩ := Option.isSome_iff_exists.mp (seqOpt_isSome hfs2)
    obtain ⟨hlen2, helem2⟩ := seqOpt_getElem? hv2
    have hci2 : colors2[i]? = some (c0.setc chD (c.get chD)) := by
      rw [helem2 i, mapWithIndex_getElem?, hx0]
      simp [hc]
    simp [changeScaleCurve, hp, hs, hv2, getColorAt, putScale, JMap.get?_set_self]
    apply getColor_build
    · exact hci2
    · intro ch
      by_cases hcc : ch = chD
      · subst hcc
        simp only [chanVal, chmapGet_setc_self, colorGet_setc_self]
      · have hget : (sc.curves.setc chD none).get ch = sc.curves.get ch :=
          chmapGet_setc_ne _ _ _ _ hcc
        have hcol : (c0.setc chD (c.get chD)).get ch = c0.get ch :=
          colorGet_setc_ne _ _ _ _ hcc
        have horig := hch ch
        cases hsc : sc.curves.get ch with
        | none =>
            simp only [chanVal, hsc] at horig
            simp only [chanVal, hget, hsc, hcol]
            exact horig
        | some cid =>
            simp only [chanVal, hsc] at horig
            simp only [chanVal, hget, hsc, hcol]
            exact horig

/-- Witness for c5_attach_detach_preserve: a one-color scale, creating a
hue curve and detaching the (unattached) saturation channel. -/
theorem c5_attach_detach_preserve_witness :
    (createCurveFromScale "f" "p" "s" Channel.hue c5Doc).bind
      (fun d' => getColorAt d' "p" "s" 0) = some ⟨.num 0, .num 0, .num 10⟩ ∧
    (changeScaleCurve "p" "s" Channel.saturation "" c5Doc).bind
      (fun d' => getColorAt d' "p" "s" 0) = some ⟨.num 0, .num 0, .num 10⟩ :=
  c5_attach_detach_preserve c5Doc "p" "s" "f" Channel.hue Channel.saturation 0
    c5Pal c5Scale ⟨.num 0, .num 0, .num 10⟩
    (by decide) (by decide) (by decide) (by decide) (by decide)
